import Mathlib

/-!
Verification of the core algorithms of `patroni/utils.py`: the fixed-format
timestamp parser (`parse_datetime`), the TTL calculator (`calculate_ttl`),
the interruptible sleep primitive (`sleep`), the child reaper
(`reap_children`), and the `Retry` policy (`Retry.__call__`, `Retry.reset`,
`Retry.copy`).

Numeric values (Python floats and ints) are embedded as `ℚ` and `ℤ` with
exact arithmetic, with one exception: the `max_jitter` configuration of
`Retry` is computed by CPython in IEEE-754 binary64 arithmetic
(`int(max_jitter * 100)` in `__init__`, `self.max_jitter / 100.0` in
`copy`), and that rounding is observable — the copy of a policy whose
stored `max_jitter` is 29 stores 28 — so those two operations are embedded
with an explicit binary64 round-to-nearest-even (`roundDouble`).  Ambient
effects are made explicit: the current wall-clock
time is a `ℚ` parameter threaded through the executions, the random jitter
draw and the per-invocation outcome of the retried operation are input
streams indexed by invocation number, and the operating-system responses to
`waitpid` are an input list.  Fallible Python code (code that can raise) is
embedded with `Except`/`Option` result types.
-/

namespace Patroni

/-- Python `int()` applied to an exact rational: truncation toward zero. -/
def truncQ (q : ℚ) : ℤ := if 0 ≤ q then ⌊q⌋ else ⌈q⌉

/-! ## Timestamp parser (`_DATE_TIME_RE` and `parse_datetime`) -/

/-- ASCII digit test: the `\d` character class of `_DATE_TIME_RE`. -/
def isDig (c : Char) : Bool := decide ('0' ≤ c) && decide (c ≤ '9')

/-- Read exactly `n` ASCII digits from the front of `cs`, accumulating their
decimal value into `acc` (the value `int(...)` of a captured group);
`none` when a non-digit or the end of input is hit first. -/
def readDigits : ℕ → ℕ → List Char → Option (ℕ × List Char)
  | acc, 0, cs => some (acc, cs)
  | _, _ + 1, [] => none
  | acc, n + 1, c :: cs =>
      if isDig c then readDigits (acc * 10 + (c.toNat - 48)) n cs else none

/-- Consume one expected literal character of the pattern. -/
def expectCh (ch : Char) : List Char → Option (List Char)
  | [] => none
  | c :: cs => if c = ch then some cs else none

/-- The tail `\d*Z$` of `_DATE_TIME_RE`: any number of extra digits
followed by a literal `Z` at the end of the string. -/
def digitsThenZ : List Char → Bool
  | [] => false
  | [c] => c == 'Z'
  | c :: cs => isDig c && digitsThenZ cs

/-- The six captured integer groups of `_DATE_TIME_RE` (plus microseconds),
exactly the keyword arguments handed to `datetime.datetime(**p)`. -/
structure DateTimeFields where
  year : ℕ
  month : ℕ
  day : ℕ
  hour : ℕ
  minute : ℕ
  second : ℕ
  microsecond : ℕ
deriving DecidableEq, Repr

/-- `_DATE_TIME_RE.match`: the anchored pattern
`^\d{4}-\d{2}-\d{2}T\d{2}:\d{2}:\d{2}\.\d{6}\d*Z$` with the seven numeric
captures; `none` exactly when the string does not match. -/
def regexMatch (s : String) : Option DateTimeFields :=
  (readDigits 0 4 s.data).bind fun p1 =>
  (expectCh '-' p1.2).bind fun r2 =>
  (readDigits 0 2 r2).bind fun p2 =>
  (expectCh '-' p2.2).bind fun r3 =>
  (readDigits 0 2 r3).bind fun p3 =>
  (expectCh 'T' p3.2).bind fun r4 =>
  (readDigits 0 2 r4).bind fun p4 =>
  (expectCh ':' p4.2).bind fun r5 =>
  (readDigits 0 2 r5).bind fun p5 =>
  (expectCh ':' p5.2).bind fun r6 =>
  (readDigits 0 2 r6).bind fun p6 =>
  (expectCh '.' p6.2).bind fun r7 =>
  (readDigits 0 6 r7).bind fun p7 =>
  if digitsThenZ p7.2 then
    some ⟨p1.1, p2.1, p3.1, p4.1, p5.1, p6.1, p7.1⟩
  else none

/-- Gregorian leap-year rule used by `datetime.date`. -/
def isLeapYear (y : ℕ) : Bool := y % 4 == 0 && (y % 100 != 0 || y % 400 == 0)

/-- Number of days of month `m` of year `y` in the proleptic Gregorian
calendar of the `datetime` module. -/
def daysInMonth (y m : ℕ) : ℕ :=
  if m = 2 then (if isLeapYear y then 29 else 28)
  else if m = 4 ∨ m = 6 ∨ m = 9 ∨ m = 11 then 30 else 31

/-- The argument ranges accepted by the `datetime.datetime` constructor;
outside them the constructor raises `ValueError`. -/
def dtValid (f : DateTimeFields) : Prop :=
  1 ≤ f.year ∧ f.year ≤ 9999 ∧ 1 ≤ f.month ∧ f.month ≤ 12 ∧
  1 ≤ f.day ∧ f.day ≤ daysInMonth f.year f.month ∧
  f.hour ≤ 23 ∧ f.minute ≤ 59 ∧ f.second ≤ 59 ∧ f.microsecond ≤ 999999

instance (f : DateTimeFields) : Decidable (dtValid f) := by
  unfold dtValid; exact inferInstance

instance {ε α : Type} [DecidableEq ε] [DecidableEq α] : DecidableEq (Except ε α) :=
  fun a b =>
    match a, b with
    | Except.ok x, Except.ok y =>
        if h : x = y then isTrue (by simp [h]) else isFalse (by simp [h])
    | Except.error x, Except.error y =>
        if h : x = y then isTrue (by simp [h]) else isFalse (by simp [h])
    | Except.ok _, Except.error _ => isFalse (by simp)
    | Except.error _, Except.ok _ => isFalse (by simp)

/-- `parse_datetime(time_str)`: match `_DATE_TIME_RE`; on mismatch return
`None`; on a match construct `datetime.datetime(**p)` from the captured
integers, which raises `ValueError` (the `Except.error` case) when a
captured field is outside the constructor's accepted range. -/
def parse_datetime (s : String) : Except Unit (Option DateTimeFields) :=
  match regexMatch s with
  | none => Except.ok none
  | some f => if dtValid f then Except.ok (some f) else Except.error ()

/-! ## TTL calculator (`calculate_ttl`) -/

/-- `datetime.date.toordinal` of the date part: days in the proleptic
Gregorian calendar with day 0 at 0001-01-00. -/
def daysBeforeMonth (y m : ℕ) : ℕ :=
  [0, 31, 59, 90, 120, 151, 181, 212, 243, 273, 304, 334].getD (m - 1) 0 +
    (if 2 < m ∧ isLeapYear y = true then 1 else 0)

/-- Ordinal day number of the date part of `f` (CPython's
`ymd_to_ord`-style computation). -/
def toOrdinal (f : DateTimeFields) : ℕ :=
  365 * (f.year - 1) + (f.year - 1) / 4 - (f.year - 1) / 100 + (f.year - 1) / 400 +
    daysBeforeMonth f.year f.month + (f.day - 1)

/-- The timestamp of `f` as exact seconds on a linear scale: the quantity
in which `datetime` subtraction measures `total_seconds()`. -/
def dtToSeconds (f : DateTimeFields) : ℚ :=
  (toOrdinal f : ℚ) * 86400 + (f.hour : ℚ) * 3600 + (f.minute : ℚ) * 60 +
    (f.second : ℚ) + (f.microsecond : ℚ) / 1000000

/-- `calculate_ttl(expiration)`: `None` for a falsy argument (absent or the
empty string); otherwise parse (a raised `ValueError` propagates); `None`
when parsing yields no match; otherwise
`int((expiration - now).total_seconds())` where `now` is the ambient
current UTC time, passed here explicitly as `nowSec` on the same linear
seconds scale as `dtToSeconds`. -/
def calculate_ttl (nowSec : ℚ) (expiration : Option String) : Except Unit (Option ℤ) :=
  match expiration with
  | none => Except.ok none
  | some s =>
      if s = "" then Except.ok none
      else
        match parse_datetime s with
        | Except.error e => Except.error e
        | Except.ok none => Except.ok none
        | Except.ok (some f) => Except.ok (some (truncQ (dtToSeconds f - nowSec)))

/-! ## Interruptible sleep (`sleep`)

The ambient wall clock and the behaviour of each underlying
`time.sleep` attempt are made explicit.  The global `interrupted_sleep`
flag is cleared immediately before each `time.sleep` call, so the flag
value observed after an attempt records exactly whether a SIGCHLD was
delivered during that attempt; an attempt is therefore one of:
`full extra` — no interruption, `time.sleep` slept the whole requested
duration (plus a scheduling overshoot `extra ≥ 0`) and the flag stayed
false — or `intr d` — a SIGCHLD handler ran after `d` seconds, set the
flag, and `time.sleep` returned early. -/

/-- One underlying `time.sleep` attempt, as observed by the loop. -/
inductive SleepEv where
  | full (extra : ℚ)
  | intr (d : ℚ)
deriving DecidableEq

/-- The `while current_time < end_time` loop of `sleep`: returns the final
wall-clock time together with the final value of the `interrupted_sleep`
flag (cleared unconditionally after the loop); `none` when the supplied
event list is too short to finish the wait. -/
def sleepAux (endTime : ℚ) : ℚ → List SleepEv → Option (ℚ × Bool)
  | cur, [] => if cur < endTime then none else some (cur, false)
  | cur, e :: rest =>
      if cur < endTime then
        match e with
        | SleepEv.full extra => some (endTime + extra, false)
        | SleepEv.intr d => sleepAux endTime (cur + d) rest
      else some (cur, false)

/-- `sleep(interval)`: compute `end_time = time.time() + interval` once and
resume interrupted `time.sleep` attempts until the wall clock reaches it. -/
def sleep (interval start : ℚ) (evs : List SleepEv) : Option (ℚ × Bool) :=
  sleepAux (start + interval) start evs

/-! ## Child reaper (`reap_children`) -/

/-- One response of `os.waitpid(-1, os.WNOHANG)`: either a returned
`(pid, status)` pair or a raised `OSError`. -/
inductive WaitRes where
  | pair (p q : ℕ)
  | oserror
deriving DecidableEq

/-- The `while True` drain loop of `reap_children`: consume `waitpid`
responses until `(0, 0)` is returned (normal break) or `OSError` is raised;
yields whether an `OSError` occurred, together with the unconsumed
responses; `none` when the response list runs out first. -/
def drainChildren : List WaitRes → Option (Bool × List WaitRes)
  | [] => none
  | WaitRes.oserror :: rest => some (true, rest)
  | WaitRes.pair p q :: rest =>
      if p = 0 ∧ q = 0 then some (false, rest) else drainChildren rest

/-- `reap_children()`: when the pending-reap flag is set, drain exited
children, swallowing any `OSError` (`except OSError: pass`) and clearing
the flag in a `finally` block on both the normal and the error path; when
the flag is clear, do nothing.  Returns the new flag value and the
unconsumed `waitpid` responses. -/
def reap_children (flag : Bool) (world : List WaitRes) : Option (Bool × List WaitRes) :=
  if flag then
    match drainChildren world with
    | none => none
    | some (_, rest) => some (false, rest)
  else some (flag, world)

/-! ## Retry policy (`Retry`) -/

/-- Round a rational to an integer: nearest, ties to even. -/
def roundHalfEven (x : ℚ) : ℤ :=
  if 2 * (x - ⌊x⌋) < 1 then ⌊x⌋
  else if 1 < 2 * (x - ⌊x⌋) then ⌊x⌋ + 1
  else if ⌊x⌋ % 2 = 0 then ⌊x⌋ else ⌊x⌋ + 1

/-- IEEE-754 binary64 rounding (round to nearest, ties to even) of an exact
rational in the normal range: the nearest value `m * 2^(e-52)` with
`2^e ≤ |q| < 2^(e+1)` and `|m| < 2^53`.  Exponent overflow and subnormals
are not modelled; every quantity rounded in this development is far inside
the normal range.  This is the arithmetic CPython applies to the two float
operations on the `max_jitter` configuration. -/
def roundDouble (q : ℚ) : ℚ :=
  if q = 0 then 0
  else if q < 0 then
    -((roundHalfEven (-q * 2 ^ ((52 : ℤ) - Int.log 2 (-q))) : ℚ) *
      2 ^ (Int.log 2 (-q) - 52))
  else
    (roundHalfEven (q * 2 ^ ((52 : ℤ) - Int.log 2 q)) : ℚ) *
      2 ^ (Int.log 2 q - 52)

/-- The state of a `Retry` instance: the configuration fields fixed by
`__init__` (`max_tries`, `delay`, `backoff`, `max_jitter`, `max_delay`,
`deadline`) and the mutable run state (`_attempts`, `_cur_delay`,
`_cur_stoptime`).  `max_jitter` is stored as `int(max_jitter * 100)`,
exactly as in `__init__`.  The `sleep_func` and `retry_exceptions`
configuration are not data: the former is the explicit clock advance of
the executor below, the latter is the retryable/fatal classification
carried by each operation outcome. -/
structure Retry where
  max_tries : ℤ
  delay : ℚ
  backoff : ℚ
  max_jitter : ℤ
  max_delay : ℚ
  deadline : Option ℚ
  attempts : ℤ
  cur_delay : ℚ
  cur_stoptime : Option ℚ
deriving DecidableEq

/-- `Retry.__init__`: store the configuration, with
`max_jitter = int(max_jitter * 100)` and fresh run state.  The `max_jitter`
argument stands for the Python float handed in by the caller; the product
`max_jitter * 100` is a binary64 multiplication (100 is exactly
representable, so one `roundDouble` of the exact product), truncated by
`int()`. -/
def Retry.init (max_tries : ℤ) (delay backoff max_jitter max_delay : ℚ)
    (deadline : Option ℚ) : Retry :=
  { max_tries := max_tries
    delay := delay
    backoff := backoff
    max_jitter := truncQ (roundDouble (max_jitter * 100))
    max_delay := max_delay
    deadline := deadline
    attempts := 0
    cur_delay := delay
    cur_stoptime := none }

/-- `Retry.reset`: zero the attempt counter and the per-sequence state. -/
def Retry.reset (r : Retry) : Retry :=
  { r with attempts := 0, cur_delay := r.delay, cur_stoptime := none }

/-- `Retry.copy`: a new instance built by `__init__` from the stored
configuration, with `max_jitter` handed back as `self.max_jitter / 100.0` —
a binary64 division (the stored integer and 100 are exactly representable,
so one `roundDouble` of the exact quotient).  The round trip through
`__init__` is not always exact: a stored `max_jitter` of 29 comes back
as 28. -/
def Retry.copy (r : Retry) : Retry :=
  Retry.init r.max_tries r.delay r.backoff (roundDouble ((r.max_jitter : ℚ) / 100))
    r.max_delay r.deadline

/-- Outcome of one invocation of the retried operation: a returned value,
a raised exception in `retry_exceptions` (retryable), or any other raised
exception (fatal, propagated unchanged). -/
inductive OpOutcome (α : Type) where
  | ok (v : α)
  | retryable
  | fatal
deriving DecidableEq

/-- Message of `RetryFailedError("Too many retry attempts")`. -/
def exhaustMsg : String := "Too many retry attempts"

/-- Message of `RetryFailedError("Exceeded retry deadline")`. -/
def deadlineMsg : String := "Exceeded retry deadline"

/-- Result of `Retry.__call__`: the operation's value, a raised
`RetryFailedError` with its message, or a propagated non-retryable
exception. -/
inductive RunResult (α : Type) where
  | ok (v : α)
  | retryFailed (msg : String)
  | fatalErr
deriving DecidableEq

/-- Record of one pass through the `except` handler of `Retry.__call__`:
`preDelay` is `self._cur_delay` when `sleeptime` was computed (before the
post-sleep backoff update), `jit` the `random.randint(0, self.max_jitter)`
draw, `sleeptime` the computed sleep duration, `tCheck` the wall-clock
time at the deadline comparison, and `slept` whether `sleep_func` ran
(false exactly when the handler raised `RetryFailedError` for the
deadline instead of sleeping). -/
structure Round where
  preDelay : ℚ
  jit : ℤ
  sleeptime : ℚ
  tCheck : ℚ
  slept : Bool
deriving DecidableEq

/-- Everything observable about one `Retry.__call__` execution: its result,
the number of operation invocations, the final instance state, the final
wall-clock time, and the per-failure `Round` records in order. -/
structure RunOut (α : Type) where
  result : RunResult α
  calls : ℕ
  finalState : Retry
  finalTime : ℚ
  rounds : List Round
deriving DecidableEq

/-- The lazy arming of the deadline at the top of the `try` block:
`if self.deadline is not None and self._cur_stoptime is None:
self._cur_stoptime = time.time() + self.deadline`. -/
def armStop (r : Retry) (now : ℚ) : Retry :=
  match r.deadline, r.cur_stoptime with
  | some d, none => { r with cur_stoptime := some (now + d) }
  | _, _ => r

/-- `self._attempts += 1`. -/
def incAttempts (r : Retry) : Retry := { r with attempts := r.attempts + 1 }

/-- `self._cur_delay = min(self._cur_delay * self.backoff, self.max_delay)`. -/
def stepDelay (r : Retry) : Retry :=
  { r with cur_delay := min (r.cur_delay * r.backoff) r.max_delay }

/-- Prepend this iteration's `Round` record to the trace of the rest of
the run. -/
def addRound {α : Type} (rnd : Round) : Option (RunOut α) → Option (RunOut α)
  | none => none
  | some out => some { out with rounds := rnd :: out.rounds }

/-- The same `Retry` state with the stored `max_jitter` replaced: used to
relate an execution of a `copy` (whose `max_jitter` may differ after the
float round trip) to an execution of the original. -/
def setMJ (j : ℤ) (r : Retry) : Retry := { r with max_jitter := j }

/-- The `while True` loop of `Retry.__call__`.  `op n`, `opTime n` and
`jitter n` are the outcome, the elapsed wall-clock time and the
`random.randint` draw of invocation number `n`; `now` is the wall clock at
the top of the iteration, `calls` the number of invocations made so far.
`fuel` bounds the number of iterations (`none` = ran out: with
`max_tries = -1` the loop may run forever), so a `some` result is a
complete terminated execution. -/
def Retry.loop {α : Type} (op : ℕ → OpOutcome α) (opTime : ℕ → ℚ) (jitter : ℕ → ℤ) :
    ℕ → Retry → ℚ → ℕ → Option (RunOut α)
  | 0, _, _, _ => none
  | fuel + 1, r0, now, calls =>
    let r1 : Retry := armStop r0 now
    match op calls with
    | OpOutcome.ok v => some ⟨RunResult.ok v, calls + 1, r1, now + opTime calls, []⟩
    | OpOutcome.fatal => some ⟨RunResult.fatalErr, calls + 1, r1, now + opTime calls, []⟩
    | OpOutcome.retryable =>
      if r1.attempts = r1.max_tries then
        some ⟨RunResult.retryFailed exhaustMsg, calls + 1, r1, now + opTime calls, []⟩
      else
        let r2 : Retry := incAttempts r1
        let st : ℚ := r2.cur_delay + (jitter calls : ℚ) / 100
        let tA : ℚ := now + opTime calls
        match r2.cur_stoptime with
        | some stop =>
          if stop ≤ tA + st then
            some ⟨RunResult.retryFailed deadlineMsg, calls + 1, r2, tA,
              [⟨r2.cur_delay, jitter calls, st, tA, false⟩]⟩
          else
            addRound ⟨r2.cur_delay, jitter calls, st, tA, true⟩
              (Retry.loop op opTime jitter fuel (stepDelay r2) (tA + st) (calls + 1))
        | none =>
          addRound ⟨r2.cur_delay, jitter calls, st, tA, true⟩
            (Retry.loop op opTime jitter fuel (stepDelay r2) (tA + st) (calls + 1))

/-- `Retry.__call__(func, ...)`: `self.reset()` then the retry loop,
starting with zero invocations at wall-clock time `now`. -/
def Retry.call {α : Type} (op : ℕ → OpOutcome α) (opTime : ℕ → ℚ) (jitter : ℕ → ℤ)
    (fuel : ℕ) (r : Retry) (now : ℚ) : Option (RunOut α) :=
  Retry.loop op opTime jitter fuel r.reset now 0

/-- The deadline instant a loop iteration entered at time `now` will
enforce: the already-armed `_cur_stoptime` when set, else `now + deadline`
when a deadline is configured, else none. -/
def stopOf (r : Retry) (now : ℚ) : Option ℚ :=
  match r.cur_stoptime with
  | some s => some s
  | none => Option.map (fun d => now + d) r.deadline

/-- The valid doctest input of `parse_datetime`. -/
def goodInput : String := "2015-06-10T12:56:30.552539016Z"

/-- The rejected doctest input of `parse_datetime` (space instead of `T`). -/
def badSpaceInput : String := "2015-06-10 12:56:30.552539016Z"

/-- A string matching `_DATE_TIME_RE` whose month field is 13. -/
def badMonthInput : String := "2015-13-10T12:56:30.552539016Z"

/-- A timestamp with a fractional-second part of exactly one half. -/
def pastInput : String := "2015-06-10T12:56:30.500000Z"

/-- An operation that raises a retryable exception on every invocation. -/
def alwaysRetry : ℕ → OpOutcome Unit := fun _ => OpOutcome.retryable

/-- An invocation that consumes no wall-clock time. -/
def zeroQ : ℕ → ℚ := fun _ => 0

/-- A degenerate jitter stream: `random.randint(0, 0)` draws. -/
def zeroJit : ℕ → ℤ := fun _ => 0

/-- A concrete deadline-aborted execution (deadline 1 s, initial delay 5 s,
started at time 10): one invocation, then the deadline guard fires without
sleeping. -/
def deadlineRunOut : RunOut Unit :=
  ⟨RunResult.retryFailed deadlineMsg, 1, ⟨5, 5, 2, 0, 3600, some 1, 1, 5, some 11⟩,
    10, [⟨5, 0, 5, 10, false⟩]⟩

/-! ## Theorems -/

/-- Soundness of the `sleep` loop: any complete run ends at or after the
precomputed `end_time`, with the interruption flag clear. -/
theorem sleepAux_ge (endTime : ℚ) :
    ∀ (evs : List SleepEv) (cur t : ℚ) (flag : Bool),
      (∀ extra : ℚ, SleepEv.full extra ∈ evs → 0 ≤ extra) →
      sleepAux endTime cur evs = some (t, flag) → endTime ≤ t ∧ flag = false := by
  intro evs
  induction evs with
  | nil =>
      intro cur t flag _ h
      unfold sleepAux at h
      split at h
      · exact absurd h (by simp)
      · next hcur =>
          simp only [Option.some.injEq, Prod.mk.injEq] at h
          obtain ⟨h1, h2⟩ := h
          exact ⟨h1 ▸ le_of_not_lt hcur, h2.symm⟩
  | cons e rest ih =>
      intro cur t flag hvalid h
      unfold sleepAux at h
      split at h
      · cases e with
        | full extra =>
            simp only [Option.some.injEq, Prod.mk.injEq] at h
            obtain ⟨h1, h2⟩ := h
            refine ⟨h1 ▸ le_add_of_nonneg_right ?_, h2.symm⟩
            exact hvalid extra (List.mem_cons_self _ _)
        | intr d =>
            exact ih (cur + d) t flag
              (fun extra hm => hvalid extra (List.mem_cons_of_mem _ hm)) h
      · next hcur =>
          simp only [Option.some.injEq, Prod.mk.injEq] at h
          obtain ⟨h1, h2⟩ := h
          exact ⟨h1 ▸ le_of_not_lt hcur, h2.symm⟩

/-- Binary64 rounding of zero. -/
theorem roundDouble_zero : roundDouble 0 = 0 := by
  simp [roundDouble]

/-- Characterization of `roundDouble` on a positive input whose binade is
known: with `2^e ≤ q < 2^(e+1)`, the rounding scales by `2^(52-e)`, rounds
to the nearest (even) integer mantissa and scales back. -/
theorem roundDouble_eq_of (q : ℚ) (e : ℤ) (h1 : 0 < q) (h2 : (2 : ℚ) ^ e ≤ q)
    (h3 : q < (2 : ℚ) ^ (e + 1)) :
    roundDouble q = (roundHalfEven (q * 2 ^ ((52 : ℤ) - e)) : ℚ) * 2 ^ (e - 52) := by
  have hcast : ((2 : ℕ) : ℚ) = (2 : ℚ) := by norm_num
  have hle : e ≤ Int.log 2 q := by
    rw [← Int.zpow_le_iff_le_log one_lt_two h1, hcast]
    exact h2
  have hlt : Int.log 2 q < e + 1 := by
    rw [← Int.lt_zpow_iff_log_lt one_lt_two h1, hcast]
    exact h3
  have hlog : Int.log 2 q = e := by omega
  unfold roundDouble
  rw [if_neg (ne_of_gt h1), if_neg (not_lt.mpr h1.le), hlog]

/-- 80 is exactly representable, so binary64 rounding fixes it. -/
theorem roundDouble_80 : roundDouble 80 = 80 := by
  rw [roundDouble_eq_of 80 6 (by norm_num) (by norm_num) (by norm_num)]
  norm_num [roundHalfEven]

/-- The double nearest `0.295` (the caller-side value of
`Retry(max_jitter=0.295)`). -/
theorem roundDouble_295 : roundDouble (295 / 1000) = 5314247560297185 / 2 ^ 54 := by
  rw [roundDouble_eq_of (295 / 1000) (-2) (by norm_num) (by norm_num) (by norm_num)]
  norm_num [roundHalfEven]

/-- `double(0.295) * 100` rounds to exactly `29.5` in binary64. -/
theorem roundDouble_295_times100 :
    roundDouble (5314247560297185 / 2 ^ 54 * 100) = 59 / 2 := by
  rw [roundDouble_eq_of _ 4 (by norm_num) (by norm_num) (by norm_num)]
  norm_num [roundHalfEven]

/-- The binary64 quotient `29 / 100.0`: the double nearest `0.29`. -/
theorem roundDouble_29div100 :
    roundDouble ((29 : ℚ) / 100) = 5224175567749775 / 2 ^ 54 := by
  rw [roundDouble_eq_of _ (-2) (by norm_num) (by norm_num) (by norm_num)]
  norm_num [roundHalfEven]

/-- `double(0.29) * 100` rounds to `29 - 2^(-48) ≈ 28.999999999999996` in
binary64 — strictly below 29, which is what `int()` then truncates to 28. -/
theorem roundDouble_29_roundtrip :
    roundDouble (5224175567749775 / 2 ^ 54 * 100) = 8162774324609023 / 2 ^ 48 := by
  rw [roundDouble_eq_of _ 4 (by norm_num) (by norm_num) (by norm_num)]
  norm_num [roundHalfEven]

/-- C7: `sleep(interval)` returns only after total elapsed wall-clock time
is at least `interval`, however many times the interruption flag was raised
during the wait; the flag is cleared before each underlying `time.sleep`
attempt (each `SleepEv` therefore reports only its own interruption) and is
unconditionally false when `sleep` returns.  The hypothesis states that an
uninterrupted `time.sleep` never sleeps less than requested. -/
theorem sleep_elapsed_ge (interval start : ℚ) (evs : List SleepEv) (t : ℚ) (flag : Bool)
    (hvalid : ∀ extra : ℚ, SleepEv.full extra ∈ evs → 0 ≤ extra)
    (h : sleep interval start evs = some (t, flag)) :
    start + interval ≤ t ∧ flag = false :=
  sleepAux_ge (start + interval) evs start t flag hvalid h

/-- C7 witness: a 10-second wait interrupted twice (after 3 s and 4 s) still
ends at wall-clock time 10 with the flag clear. -/
theorem sleep_elapsed_ge_witness :
    (0 : ℚ) + 10 ≤ 10 ∧ false = false := by
  refine sleep_elapsed_ge 10 0 [SleepEv.intr 3, SleepEv.intr 4, SleepEv.full 0] 10 false ?_ ?_
  · intro extra hm
    simp only [List.mem_cons, List.mem_singleton] at hm
    rcases hm with h | h | h <;> simp_all
  · norm_num [sleep, sleepAux]

/-- C9: `reap_children` leaves the pending-reap flag false on every exit
path: with the flag clear it does nothing (the `waitpid` responses are left
untouched); with the flag set it drains exited children until `(0, 0)` or an
`OSError`, and in both cases — the error being swallowed, never propagated —
returns with the flag cleared. -/
theorem reap_children_clears_flag :
    (∀ (flag : Bool) (world : List WaitRes) (out : Bool × List WaitRes),
       reap_children flag world = some out → out.1 = false) ∧
    (∀ world : List WaitRes, reap_children false world = some (false, world)) ∧
    (∀ world rest : List WaitRes, drainChildren world = some (true, rest) →
       reap_children true world = some (false, rest)) := by
  refine ⟨?_, ?_, ?_⟩
  · intro flag world out h
    cases flag with
    | false =>
        simp only [reap_children, Bool.false_eq_true, if_false, Option.some.injEq] at h
        rw [h.symm]
    | true =>
        simp only [reap_children, if_true] at h
        rcases hd : drainChildren world with _ | p
        · rw [hd] at h; exact absurd h (by simp)
        · rw [hd] at h
          obtain ⟨e, rest⟩ := p
          simp only [Option.some.injEq] at h
          rw [h.symm]
  · intro world; rfl
  · intro world rest h
    simp only [reap_children, if_true, h]

/-- C9 witness: with the flag set and `waitpid` raising `OSError` at once
(no children), the error is swallowed and the flag comes back false; with
the flag clear nothing happens. -/
theorem reap_children_clears_flag_witness :
    reap_children true [WaitRes.oserror] = some (false, []) ∧
    reap_children false [WaitRes.oserror] = some (false, [WaitRes.oserror]) :=
  ⟨reap_children_clears_flag.2.2 [WaitRes.oserror] [] rfl,
   reap_children_clears_flag.2.1 [WaitRes.oserror]⟩

/-- C10: `calculate_ttl` on the empty string returns `None` exactly as on an
absent value: the `if not expiration` falsiness test precedes parsing, so
both falsy inputs at the public interface yield `None`. -/
theorem calculate_ttl_falsy (nowSec : ℚ) :
    calculate_ttl nowSec (some "") = Except.ok none ∧
    calculate_ttl nowSec none = Except.ok none :=
  ⟨rfl, rfl⟩

/-- C2 counterexample: the string `"2015-13-10T12:56:30.552539016Z"` matches
`_DATE_TIME_RE` (`\d{2}` accepts the month field 13), and
`datetime.datetime(month=13, ...)` then raises `ValueError`: `parse_datetime`
does not return on every input. -/
theorem parse_datetime_month13_raises :
    parse_datetime badMonthInput = Except.error () := by decide

/-- C2 (amended): `parse_datetime` returns `None` (without raising) on every
string that does not match `_DATE_TIME_RE`; on a matching string it returns
the structured timestamp when the captured fields lie in the ranges accepted
by the `datetime.datetime` constructor, and raising is possible only for a
matching string whose captured fields are outside those ranges; on the valid
doctest input it returns the documented fields. -/
theorem parse_datetime_amended :
    (∀ s : String, regexMatch s = none → parse_datetime s = Except.ok none) ∧
    (∀ (s : String) (f : DateTimeFields), regexMatch s = some f → dtValid f →
       parse_datetime s = Except.ok (some f)) ∧
    (∀ (s : String) (e : Unit), parse_datetime s = Except.error e →
       ∃ f, regexMatch s = some f ∧ ¬ dtValid f) ∧
    parse_datetime goodInput = Except.ok (some ⟨2015, 6, 10, 12, 56, 30, 552539⟩) := by
  refine ⟨?_, ?_, ?_, by decide⟩
  · intro s h; simp [parse_datetime, h]
  · intro s f hm hv; simp [parse_datetime, hm, hv]
  · intro s e h
    simp only [parse_datetime] at h
    split at h
    · exact absurd h (by simp)
    · next f hm =>
        split at h
        · exact absurd h (by simp)
        · next hv => exact ⟨f, hm, hv⟩

/-- C2 witness: the doctest mismatch (space instead of `T`) yields `None`
rather than an error. -/
theorem parse_datetime_amended_witness :
    parse_datetime badSpaceInput = Except.ok none :=
  parse_datetime_amended.1 badSpaceInput (by decide)

/-- C3 counterexample: for a timestamp 1.5 seconds in the past,
`calculate_ttl` returns `int(-1.5) = -1` — Python `int()` truncates toward
zero — while the floor of the difference is `-2`. -/
theorem calculate_ttl_not_floor :
    calculate_ttl (dtToSeconds ⟨2015, 6, 10, 12, 56, 32, 0⟩) (some pastInput) =
      Except.ok (some (-1)) ∧
    ⌊dtToSeconds ⟨2015, 6, 10, 12, 56, 30, 500000⟩ -
      dtToSeconds ⟨2015, 6, 10, 12, 56, 32, 0⟩⌋ = (-2 : ℤ) ∧
    ((-1 : ℤ) ≠ (-2 : ℤ)) := by
  have hparse : parse_datetime pastInput =
      Except.ok (some ⟨2015, 6, 10, 12, 56, 30, 500000⟩) := by decide
  have h1 : toOrdinal ⟨2015, 6, 10, 12, 56, 30, 500000⟩ = 735758 := by decide
  have h2 : toOrdinal ⟨2015, 6, 10, 12, 56, 32, 0⟩ = 735758 := by decide
  have hdiff : dtToSeconds ⟨2015, 6, 10, 12, 56, 30, 500000⟩ -
      dtToSeconds ⟨2015, 6, 10, 12, 56, 32, 0⟩ = -(3/2) := by
    simp only [dtToSeconds, h1, h2]
    norm_num
  refine ⟨?_, ?_, by decide⟩
  · simp only [calculate_ttl]
    rw [if_neg (by decide : ¬ pastInput = "")]
    rw [hparse]
    simp only [Option.some.injEq, Except.ok.injEq]
    rw [hdiff]
    simp only [truncQ]
    rw [if_neg (by norm_num)]
    rw [Int.ceil_neg]
    norm_num
  · rw [hdiff]
    norm_num

/-- C3 (amended): for an absent value `calculate_ttl` returns `None`; for
text that matches nothing it returns `None`; for parseable text it returns
the difference `parsedTimestamp − now` in whole seconds truncated toward
zero (Python `int()`), which coincides with the floor exactly when the
difference is nonnegative, but not in general when the lease is already
expired. -/
theorem calculate_ttl_amended :
    (∀ nowSec : ℚ, calculate_ttl nowSec none = Except.ok none) ∧
    (∀ (nowSec : ℚ) (s : String), parse_datetime s = Except.ok none →
       calculate_ttl nowSec (some s) = Except.ok none) ∧
    (∀ (nowSec : ℚ) (s : String) (f : DateTimeFields),
       parse_datetime s = Except.ok (some f) →
       calculate_ttl nowSec (some s) =
         Except.ok (some (truncQ (dtToSeconds f - nowSec))) ∧
       (0 ≤ dtToSeconds f - nowSec →
         truncQ (dtToSeconds f - nowSec) = ⌊dtToSeconds f - nowSec⌋)) := by
  refine ⟨fun _ => rfl, ?_, ?_⟩
  · intro nowSec s h
    by_cases hs : s = ""
    · simp [calculate_ttl, hs]
    · simp only [calculate_ttl]
      rw [if_neg hs, h]
  · intro nowSec s f h
    constructor
    · by_cases hs : s = ""
      · rw [hs] at h
        have : parse_datetime "" = Except.ok none := by decide
        rw [this] at h
        exact absurd h (by simp)
      · simp only [calculate_ttl]
        rw [if_neg hs, h]
    · intro hq
      simp only [truncQ]
      rw [if_pos hq]

/-- C3 witness: with `now` one second before the parsed timestamp, the TTL
is the truncated difference, and truncation agrees with the floor there. -/
theorem calculate_ttl_amended_witness :
    calculate_ttl (dtToSeconds ⟨2015, 6, 10, 12, 56, 29, 500000⟩) (some pastInput) =
      Except.ok (some (truncQ (dtToSeconds ⟨2015, 6, 10, 12, 56, 30, 500000⟩ -
        dtToSeconds ⟨2015, 6, 10, 12, 56, 29, 500000⟩))) ∧
    (0 ≤ dtToSeconds ⟨2015, 6, 10, 12, 56, 30, 500000⟩ -
        dtToSeconds ⟨2015, 6, 10, 12, 56, 29, 500000⟩ →
      truncQ (dtToSeconds ⟨2015, 6, 10, 12, 56, 30, 500000⟩ -
        dtToSeconds ⟨2015, 6, 10, 12, 56, 29, 500000⟩) =
      ⌊dtToSeconds ⟨2015, 6, 10, 12, 56, 30, 500000⟩ -
        dtToSeconds ⟨2015, 6, 10, 12, 56, 29, 500000⟩⌋) :=
  calculate_ttl_amended.2.2 (dtToSeconds ⟨2015, 6, 10, 12, 56, 29, 500000⟩) pastInput
    ⟨2015, 6, 10, 12, 56, 30, 500000⟩ (by decide)

@[simp] theorem armStop_max_tries (r : Retry) (now : ℚ) :
    (armStop r now).max_tries = r.max_tries := by
  unfold armStop; rcases hd : r.deadline <;> rcases hs : r.cur_stoptime <;> simp [hd, hs]

@[simp] theorem armStop_delay (r : Retry) (now : ℚ) :
    (armStop r now).delay = r.delay := by
  unfold armStop; rcases hd : r.deadline <;> rcases hs : r.cur_stoptime <;> simp [hd, hs]

@[simp] theorem armStop_backoff (r : Retry) (now : ℚ) :
    (armStop r now).backoff = r.backoff := by
  unfold armStop; rcases hd : r.deadline <;> rcases hs : r.cur_stoptime <;> simp [hd, hs]

@[simp] theorem armStop_max_jitter (r : Retry) (now : ℚ) :
    (armStop r now).max_jitter = r.max_jitter := by
  unfold armStop; rcases hd : r.deadline <;> rcases hs : r.cur_stoptime <;> simp [hd, hs]

@[simp] theorem armStop_max_delay (r : Retry) (now : ℚ) :
    (armStop r now).max_delay = r.max_delay := by
  unfold armStop; rcases hd : r.deadline <;> rcases hs : r.cur_stoptime <;> simp [hd, hs]

@[simp] theorem armStop_deadline (r : Retry) (now : ℚ) :
    (armStop r now).deadline = r.deadline := by
  unfold armStop; rcases hd : r.deadline <;> rcases hs : r.cur_stoptime <;> simp [hd, hs]

@[simp] theorem armStop_attempts (r : Retry) (now : ℚ) :
    (armStop r now).attempts = r.attempts := by
  unfold armStop; rcases hd : r.deadline <;> rcases hs : r.cur_stoptime <;> simp [hd, hs]

@[simp] theorem armStop_cur_delay (r : Retry) (now : ℚ) :
    (armStop r now).cur_delay = r.cur_delay := by
  unfold armStop; rcases hd : r.deadline <;> rcases hs : r.cur_stoptime <;> simp [hd, hs]

@[simp] theorem armStop_cur_stoptime (r : Retry) (now : ℚ) :
    (armStop r now).cur_stoptime = stopOf r now := by
  unfold armStop stopOf
  rcases hd : r.deadline <;> rcases hs : r.cur_stoptime <;> simp [hd, hs]

/-- The retry loop is stable under extra fuel: a terminated execution is
final — adding iterations changes nothing, in particular the operation is
not invoked again. -/
theorem loop_stable {α : Type} (op : ℕ → OpOutcome α) (opTime : ℕ → ℚ) (jitter : ℕ → ℤ) :
    ∀ (fuel k : ℕ) (r : Retry) (now : ℚ) (calls : ℕ) (out : RunOut α),
      Retry.loop op opTime jitter fuel r now calls = some out →
      Retry.loop op opTime jitter (fuel + k) r now calls = some out := by
  intro fuel
  induction fuel with
  | zero => intro k r now calls out h; simp [Retry.loop] at h
  | succ fuel ih =>
      intro k r now calls out h
      have hk : fuel + 1 + k = (fuel + k) + 1 := by omega
      rw [hk]
      rw [Retry.loop] at h ⊢
      rcases hop : op calls with v | _ | _ <;> simp only [hop] at h ⊢
      · exact h
      · -- retryable
        by_cases hat : (armStop r now).attempts = (armStop r now).max_tries
        · rw [if_pos hat] at h ⊢; exact h
        · rw [if_neg hat] at h ⊢
          rcases hst : (incAttempts (armStop r now)).cur_stoptime with _ | stop <;>
            simp only [hst] at h ⊢
          · rcases hrec : Retry.loop op opTime jitter fuel
                (stepDelay (incAttempts (armStop r now)))
                (now + opTime calls +
                  ((incAttempts (armStop r now)).cur_delay + (jitter calls : ℚ) / 100))
                (calls + 1) with _ | out'
            · rw [hrec] at h; exact absurd h (by simp [addRound])
            · rw [hrec] at h
              rw [ih k _ _ _ _ hrec]
              exact h
          · by_cases hle : stop ≤ now + opTime calls +
                ((incAttempts (armStop r now)).cur_delay + (jitter calls : ℚ) / 100)
            · rw [if_pos hle] at h ⊢; exact h
            · rw [if_neg hle] at h ⊢
              rcases hrec : Retry.loop op opTime jitter fuel
                  (stepDelay (incAttempts (armStop r now)))
                  (now + opTime calls +
                    ((incAttempts (armStop r now)).cur_delay + (jitter calls : ℚ) / 100))
                  (calls + 1) with _ | out'
              · rw [hrec] at h; exact absurd h (by simp [addRound])
              · rw [hrec] at h
                rw [ih k _ _ _ _ hrec]
                exact h
      · exact h

/-- Every `RetryFailedError` a terminated retry loop can produce carries one
of exactly two messages: the attempt-budget message or the deadline
message. -/
theorem loop_msg {α : Type} (op : ℕ → OpOutcome α) (opTime : ℕ → ℚ) (jitter : ℕ → ℤ) :
    ∀ (fuel : ℕ) (r : Retry) (now : ℚ) (calls : ℕ) (out : RunOut α) (msg : String),
      Retry.loop op opTime jitter fuel r now calls = some out →
      out.result = RunResult.retryFailed msg →
      msg = exhaustMsg ∨ msg = deadlineMsg := by
  intro fuel
  induction fuel with
  | zero => intro r now calls out msg h _; simp [Retry.loop] at h
  | succ fuel ih =>
      intro r now calls out msg h hres
      rw [Retry.loop] at h
      rcases hop : op calls with v | _ | _ <;> simp only [hop] at h
      · injection h with h2
        rw [← h2] at hres
        simp at hres
      · by_cases hat : (armStop r now).attempts = (armStop r now).max_tries
        · rw [if_pos hat] at h
          injection h with h2
          rw [← h2] at hres
          simp only [RunResult.retryFailed.injEq] at hres
          exact Or.inl hres.symm
        · rw [if_neg hat] at h
          rcases hst : (incAttempts (armStop r now)).cur_stoptime with _ | stop <;>
            simp only [hst] at h
          · rcases hrec : Retry.loop op opTime jitter fuel
                (stepDelay (incAttempts (armStop r now)))
                (now + opTime calls +
                  ((incAttempts (armStop r now)).cur_delay + (jitter calls : ℚ) / 100))
                (calls + 1) with _ | out'
            · rw [hrec] at h; exact absurd h (by simp [addRound])
            · rw [hrec] at h
              simp only [addRound, Option.some.injEq] at h
              refine ih _ _ _ out' msg hrec ?_
              rw [h.symm] at hres
              exact hres
          · by_cases hle : stop ≤ now + opTime calls +
                ((incAttempts (armStop r now)).cur_delay + (jitter calls : ℚ) / 100)
            · rw [if_pos hle] at h
              injection h with h2
              rw [← h2] at hres
              simp only [RunResult.retryFailed.injEq] at hres
              exact Or.inr hres.symm
            · rw [if_neg hle] at h
              rcases hrec : Retry.loop op opTime jitter fuel
                  (stepDelay (incAttempts (armStop r now)))
                  (now + opTime calls +
                    ((incAttempts (armStop r now)).cur_delay + (jitter calls : ℚ) / 100))
                  (calls + 1) with _ | out'
              · rw [hrec] at h; exact absurd h (by simp [addRound])
              · rw [hrec] at h
                simp only [addRound, Option.some.injEq] at h
                refine ih _ _ _ out' msg hrec ?_
                rw [h.symm] at hres
                exact hres
      · injection h with h2
        rw [← h2] at hres
        simp at hres

/-- Budget-exhaustion invariant: from a state with no deadline configured,
`max_tries = N` and `attempts = N - n`, an always-retryable operation is
invoked exactly `n + 1` more times before `RetryFailedError("Too many retry
attempts")`, for any sufficient fuel. -/
theorem loop_exhaust {α : Type} (op : ℕ → OpOutcome α) (opTime : ℕ → ℚ) (jitter : ℕ → ℤ)
    (hop : ∀ i, op i = OpOutcome.retryable) (N : ℕ) :
    ∀ (n fuel : ℕ) (r : Retry) (now : ℚ) (calls : ℕ),
      r.deadline = none → r.cur_stoptime = none →
      r.max_tries = (N : ℤ) → r.attempts = (N : ℤ) - (n : ℤ) →
      n + 1 ≤ fuel →
      ∃ (fs : Retry) (ft : ℚ) (rds : List Round),
        Retry.loop op opTime jitter fuel r now calls =
          some ⟨RunResult.retryFailed exhaustMsg, calls + n + 1, fs, ft, rds⟩ := by
  intro n
  induction n with
  | zero =>
      intro fuel r now calls hd hs hmt hat hfuel
      obtain ⟨fuel, rfl⟩ : ∃ f, fuel = f + 1 := ⟨fuel - 1, by omega⟩
      rw [Retry.loop]
      simp only [hop calls]
      have heq : (armStop r now).attempts = (armStop r now).max_tries := by
        simp only [armStop_attempts, armStop_max_tries, hat, hmt]
        omega
      rw [if_pos heq]
      exact ⟨armStop r now, now + opTime calls, [], rfl⟩
  | succ n ih =>
      intro fuel r now calls hd hs hmt hat hfuel
      obtain ⟨fuel, rfl⟩ : ∃ f, fuel = f + 1 := ⟨fuel - 1, by omega⟩
      rw [Retry.loop]
      simp only [hop calls]
      have hne : ¬ (armStop r now).attempts = (armStop r now).max_tries := by
        simp only [armStop_attempts, armStop_max_tries, hat, hmt]
        omega
      rw [if_neg hne]
      have hst : (incAttempts (armStop r now)).cur_stoptime = none := by
        simp [incAttempts, stopOf, hd, hs]
      simp only [hst]
      obtain ⟨fs, ft, rds, hrec⟩ := ih fuel (stepDelay (incAttempts (armStop r now)))
        (now + opTime calls +
          ((incAttempts (armStop r now)).cur_delay + (jitter calls : ℚ) / 100))
        (calls + 1)
        (by simp [stepDelay, incAttempts, hd])
        (by simp [stepDelay, incAttempts, stopOf, hd, hs])
        (by simp [stepDelay, incAttempts, hmt])
        (by simp only [stepDelay, incAttempts]; simp only [armStop_attempts, hat]; push_cast; ring)
        (by omega)
      refine ⟨fs, ft,
        ⟨(incAttempts (armStop r now)).cur_delay, jitter calls,
          (incAttempts (armStop r now)).cur_delay + (jitter calls : ℚ) / 100,
          now + opTime calls, true⟩ :: rds, ?_⟩
      rw [hrec]
      simp only [addRound]
      have harith : calls + 1 + n + 1 = calls + (n + 1) + 1 := by omega
      rw [harith]

/-- C1: for a finite attempt budget `max_tries = N ≥ 0` (and no configured
deadline, so the budget is the only terminator) and an operation that raises
a retryable exception on every invocation, `Retry.__call__` invokes the
operation exactly `N + 1` times and then raises
`RetryFailedError("Too many retry attempts")`; the conclusion holds for
every sufficient iteration bound, so the terminated run is final and the
operation is never invoked after the terminal error. -/
theorem retry_call_exhausts {α : Type} (op : ℕ → OpOutcome α) (opTime : ℕ → ℚ)
    (jitter : ℕ → ℤ) (N : ℕ) (r : Retry) (now : ℚ)
    (hop : ∀ i, op i = OpOutcome.retryable)
    (hmt : r.max_tries = (N : ℤ)) (hd : r.deadline = none) :
    ∀ fuel : ℕ, N + 1 ≤ fuel →
      ∃ (fs : Retry) (ft : ℚ) (rds : List Round),
        Retry.call op opTime jitter fuel r now =
          some ⟨RunResult.retryFailed exhaustMsg, N + 1, fs, ft, rds⟩ := by
  intro fuel hfuel
  have h := loop_exhaust op opTime jitter hop N N fuel r.reset now 0
    (by simp [Retry.reset, hd]) (by simp [Retry.reset])
    (by simp [Retry.reset, hmt]) (by simp [Retry.reset]) hfuel
  simpa [Retry.call] using h

/-- C1 witness: `max_tries = 1` yields exactly 2 invocations and the
budget-exhaustion error. -/
theorem retry_call_exhausts_witness :
    ∃ (fs : Retry) (ft : ℚ) (rds : List Round),
      Retry.call alwaysRetry zeroQ zeroJit 2 (Retry.init 1 (1/10) 2 (8/10) 3600 none) 0 =
        some ⟨RunResult.retryFailed exhaustMsg, 2, fs, ft, rds⟩ := by
  have h := retry_call_exhausts alwaysRetry zeroQ zeroJit 1
    (Retry.init 1 (1/10) 2 (8/10) 3600 none) 0 (fun _ => rfl)
    (by simp [Retry.init]) (by simp [Retry.init]) 2 (by omega)
  simpa using h

/-- C4: the two terminal retry errors are produced as the single exception
class `RetryFailedError` carrying one of exactly two distinct messages —
`"Too many retry attempts"` (attempt budget spent) and
`"Exceeded retry deadline"` (next sleep would cross the deadline) — so a
caller can distinguish which occurred; and a terminated run is final: more
fuel changes nothing, in particular the invocation count stays fixed, so
both errors abort without invoking the operation again. -/
theorem retry_terminal_kinds :
    (∀ (α : Type) (op : ℕ → OpOutcome α) (opTime : ℕ → ℚ) (jitter : ℕ → ℤ)
       (fuel : ℕ) (r : Retry) (now : ℚ) (out : RunOut α) (msg : String),
       Retry.call op opTime jitter fuel r now = some out →
       out.result = RunResult.retryFailed msg → msg = exhaustMsg ∨ msg = deadlineMsg) ∧
    exhaustMsg ≠ deadlineMsg ∧
    (∀ (α : Type) (op : ℕ → OpOutcome α) (opTime : ℕ → ℚ) (jitter : ℕ → ℤ)
       (fuel k : ℕ) (r : Retry) (now : ℚ) (out : RunOut α),
       Retry.call op opTime jitter fuel r now = some out →
       Retry.call op opTime jitter (fuel + k) r now = some out) := by
  refine ⟨?_, by decide, ?_⟩
  · intro α op opTime jitter fuel r now out msg h hres
    exact loop_msg op opTime jitter fuel r.reset now 0 out msg h hres
  · intro α op opTime jitter fuel k r now out h
    exact loop_stable op opTime jitter fuel k r.reset now 0 out h

/-- C4 witness: a concrete deadline-aborted run carries one of the two
terminal messages. -/
theorem retry_terminal_kinds_witness :
    deadlineMsg = exhaustMsg ∨ deadlineMsg = deadlineMsg :=
  retry_terminal_kinds.1 Unit alwaysRetry zeroQ zeroJit 1 (Retry.init 5 5 2 0 3600 (some 1)) 10
    ⟨RunResult.retryFailed deadlineMsg, 1,
      ⟨5, 5, 2, 0, 3600, some 1, 1, 5, some 11⟩, 10, [⟨5, 0, 5, 10, false⟩]⟩ deadlineMsg
    (by norm_num [Retry.call, Retry.loop, Retry.init, Retry.reset, armStop, incAttempts,
      stepDelay, addRound, alwaysRetry, zeroQ, zeroJit, truncQ, roundDouble_zero]) rfl

/-- Clamped exponential step: one `min (· * b) M` update of an
already-clamped delay equals clamping the unclamped product, provided the
growth factor is at least one. -/
theorem min_mul_min (x M b : ℚ) (hb : 1 ≤ b) (hx : 0 ≤ x) (hM : 0 ≤ M) :
    min (min x M * b) M = min (x * b) M := by
  rcases le_or_lt x M with h | h
  · rw [min_eq_left h]
  · rw [min_eq_right h.le]
    have h1 : M ≤ M * b := le_mul_of_one_le_right hM hb
    have h2 : M ≤ x * b := le_trans h.le (le_mul_of_one_le_right hx hb)
    rw [min_eq_right h1, min_eq_right h2]

/-- In every round record of a terminated loop, the slept duration is the
pre-update delay plus the jitter draw divided by 100. -/
theorem loop_rounds_sleeptime {α : Type} (op : ℕ → OpOutcome α) (opTime : ℕ → ℚ)
    (jitter : ℕ → ℤ) :
    ∀ (fuel : ℕ) (r : Retry) (now : ℚ) (calls : ℕ) (out : RunOut α),
      Retry.loop op opTime jitter fuel r now calls = some out →
      ∀ rnd ∈ out.rounds, rnd.sleeptime = rnd.preDelay + (rnd.jit : ℚ) / 100 := by
  intro fuel
  induction fuel with
  | zero => intro r now calls out h; simp [Retry.loop] at h
  | succ fuel ih =>
      intro r now calls out h
      rw [Retry.loop] at h
      rcases hop : op calls with v | _ | _ <;> simp only [hop] at h
      · injection h with h2
        rw [← h2]
        simp
      · by_cases hat : (armStop r now).attempts = (armStop r now).max_tries
        · rw [if_pos hat] at h
          injection h with h2
          rw [← h2]
          simp
        · rw [if_neg hat] at h
          rcases hst : (incAttempts (armStop r now)).cur_stoptime with _ | stop <;>
            simp only [hst] at h
          · rcases hrec : Retry.loop op opTime jitter fuel
                (stepDelay (incAttempts (armStop r now)))
                (now + opTime calls +
                  ((incAttempts (armStop r now)).cur_delay + (jitter calls : ℚ) / 100))
                (calls + 1) with _ | out'
            · rw [hrec] at h; exact absurd h (by simp [addRound])
            · rw [hrec] at h
              simp only [addRound, Option.some.injEq] at h
              rw [← h]
              intro rnd hm
              simp only [List.mem_cons] at hm
              rcases hm with hm | hm
              · rw [hm]
              · exact ih _ _ _ out' hrec rnd hm
          · by_cases hle : stop ≤ now + opTime calls +
                ((incAttempts (armStop r now)).cur_delay + (jitter calls : ℚ) / 100)
            · rw [if_pos hle] at h
              injection h with h2
              rw [← h2]
              intro rnd hm
              simp only [List.mem_singleton] at hm
              rw [hm]
            · rw [if_neg hle] at h
              rcases hrec : Retry.loop op opTime jitter fuel
                  (stepDelay (incAttempts (armStop r now)))
                  (now + opTime calls +
                    ((incAttempts (armStop r now)).cur_delay + (jitter calls : ℚ) / 100))
                  (calls + 1) with _ | out'
              · rw [hrec] at h; exact absurd h (by simp [addRound])
              · rw [hrec] at h
                simp only [addRound, Option.some.injEq] at h
                rw [← h]
                intro rnd hm
                simp only [List.mem_cons] at hm
                rcases hm with hm | hm
                · rw [hm]
                · exact ih _ _ _ out' hrec rnd hm
      · injection h with h2
        rw [← h2]
        simp

/-- Clamped-exponential invariant of the pre-jitter delays: starting from a
current delay already of the form `min (base * b ^ k) M` (with `1 ≤ b`,
`0 ≤ base ≤ M`), the `i`-th recorded round of a terminated loop shows the
pre-jitter delay `min (base * b ^ (k + i)) M`. -/
theorem loop_delays {α : Type} (op : ℕ → OpOutcome α) (opTime : ℕ → ℚ) (jitter : ℕ → ℤ)
    (base M b : ℚ) (hb : 1 ≤ b) (hbase : 0 ≤ base) (hM : base ≤ M) :
    ∀ (fuel k : ℕ) (r : Retry) (now : ℚ) (calls : ℕ) (out : RunOut α),
      r.backoff = b → r.max_delay = M → r.cur_delay = min (base * b ^ k) M →
      Retry.loop op opTime jitter fuel r now calls = some out →
      ∀ (i : ℕ) (hi : i < out.rounds.length),
        (out.rounds.get ⟨i, hi⟩).preDelay = min (base * b ^ (k + i)) M := by
  intro fuel
  induction fuel with
  | zero => intro k r now calls out _ _ _ h; simp [Retry.loop] at h
  | succ fuel ih =>
      intro k r now calls out hback hmax hcur h
      have hM0 : (0 : ℚ) ≤ M := le_trans hbase hM
      have hstep : min (r.cur_delay * b) M = min (base * b ^ (k + 1)) M := by
        rw [hcur, min_mul_min (base * b ^ k) M b hb (by positivity) hM0]
        rw [mul_assoc, ← pow_succ]
      rw [Retry.loop] at h
      rcases hop : op calls with v | _ | _ <;> simp only [hop] at h
      · injection h with h2
        rw [← h2]
        intro i hi
        simp at hi
      · by_cases hat : (armStop r now).attempts = (armStop r now).max_tries
        · rw [if_pos hat] at h
          injection h with h2
          rw [← h2]
          intro i hi
          simp at hi
        · rw [if_neg hat] at h
          rcases hst : (incAttempts (armStop r now)).cur_stoptime with _ | stop <;>
            simp only [hst] at h
          · rcases hrec : Retry.loop op opTime jitter fuel
                (stepDelay (incAttempts (armStop r now)))
                (now + opTime calls +
                  ((incAttempts (armStop r now)).cur_delay + (jitter calls : ℚ) / 100))
                (calls + 1) with _ | out'
            · rw [hrec] at h; exact absurd h (by simp [addRound])
            · rw [hrec] at h
              simp only [addRound, Option.some.injEq] at h
              rw [← h]
              intro i hi
              match i with
              | 0 =>
                  simp only [List.get]
                  simp [incAttempts, hcur]
              | i + 1 =>
                  have hi' : i < out'.rounds.length := by
                    simpa using hi
                  have := ih (k + 1) (stepDelay (incAttempts (armStop r now))) _ _ out'
                    (by simp [stepDelay, incAttempts, hback])
                    (by simp [stepDelay, incAttempts, hmax])
                    (by simp only [stepDelay, incAttempts]
                        simp only [armStop_cur_delay, armStop_backoff, armStop_max_delay]
                        rw [hback, hmax, hstep])
                    hrec i hi'
                  have harith : k + 1 + i = k + (i + 1) := by omega
                  rw [harith] at this
                  simpa using this
          · by_cases hle : stop ≤ now + opTime calls +
                ((incAttempts (armStop r now)).cur_delay + (jitter calls : ℚ) / 100)
            · rw [if_pos hle] at h
              injection h with h2
              rw [← h2]
              intro i hi
              match i with
              | 0 =>
                  simp only [List.get]
                  simp [incAttempts, hcur]
              | i + 1 => simp at hi
            · rw [if_neg hle] at h
              rcases hrec : Retry.loop op opTime jitter fuel
                  (stepDelay (incAttempts (armStop r now)))
                  (now + opTime calls +
                    ((incAttempts (armStop r now)).cur_delay + (jitter calls : ℚ) / 100))
                  (calls + 1) with _ | out'
              · rw [hrec] at h; exact absurd h (by simp [addRound])
              · rw [hrec] at h
                simp only [addRound, Option.some.injEq] at h
                rw [← h]
                intro i hi
                match i with
                | 0 =>
                    simp only [List.get]
                    simp [incAttempts, hcur]
                | i + 1 =>
                    have hi' : i < out'.rounds.length := by
                      simpa using hi
                    have := ih (k + 1) (stepDelay (incAttempts (armStop r now))) _ _ out'
                      (by simp [stepDelay, incAttempts, hback])
                      (by simp [stepDelay, incAttempts, hmax])
                      (by simp only [stepDelay, incAttempts]
                          simp only [armStop_cur_delay, armStop_backoff, armStop_max_delay]
                          rw [hback, hmax, hstep])
                      hrec i hi'
                    have harith : k + 1 + i = k + (i + 1) := by omega
                    rw [harith] at this
                    simpa using this
      · injection h with h2
        rw [← h2]
        intro i hi
        simp at hi

/-- C5 counterexample: with `delay = 2`, `backoff = 2`, `max_delay = 1`
(no jitter, no deadline) and an always-retryable operation, the first
pre-jitter delay actually used is the unclamped initial `_cur_delay = 2`,
whereas the claimed formula gives `min(2 * 2^0, 1) = 1`: the claim fails for
configurations whose initial delay exceeds the delay cap, because
`__init__`/`reset` never clamp `_cur_delay` by `max_delay`. -/
theorem retry_delays_counterexample :
    Retry.call alwaysRetry zeroQ zeroJit 3 (Retry.init 2 2 2 0 1 none) 0 =
      some ⟨RunResult.retryFailed exhaustMsg, 3,
        ⟨2, 2, 2, 0, 1, none, 2, 1, none⟩, 3,
        [⟨2, 0, 2, 0, true⟩, ⟨1, 0, 1, 2, true⟩]⟩ ∧
    min ((2 : ℚ) * 2 ^ 0) 1 = 1 ∧ ((2 : ℚ) ≠ 1) := by
  refine ⟨?_, by norm_num, by norm_num⟩
  norm_num [Retry.call, Retry.loop, Retry.init, Retry.reset, armStop, incAttempts, stepDelay,
    addRound, alwaysRetry, zeroQ, zeroJit, truncQ, stopOf, exhaustMsg, roundDouble_zero]

/-- C5 (amended): for configurations with `0 ≤ baseDelay ≤ maxDelay` and
`backoffMultiplier ≥ 1` (the defaults satisfy this), in every terminated
`Retry.__call__` execution the `i`-th pre-jitter delay equals
`min(baseDelay * backoffMultiplier ^ i, maxDelay)`, and each slept duration
is that pre-update delay plus the jitter term — the multiplicative growth
is applied only after the sleep, for the next round. -/
theorem retry_delays_amended {α : Type} (op : ℕ → OpOutcome α) (opTime : ℕ → ℚ)
    (jitter : ℕ → ℤ) (r : Retry) (now : ℚ) (fuel : ℕ) (out : RunOut α)
    (hb : 1 ≤ r.backoff) (hbase : 0 ≤ r.delay) (hM : r.delay ≤ r.max_delay)
    (h : Retry.call op opTime jitter fuel r now = some out) :
    (∀ (i : ℕ) (hi : i < out.rounds.length),
       (out.rounds.get ⟨i, hi⟩).preDelay = min (r.delay * r.backoff ^ i) r.max_delay) ∧
    (∀ rnd ∈ out.rounds, rnd.sleeptime = rnd.preDelay + (rnd.jit : ℚ) / 100) := by
  constructor
  · intro i hi
    have hdel := loop_delays op opTime jitter r.delay r.max_delay r.backoff hb hbase hM
      fuel 0 r.reset now 0 out
      (by simp [Retry.reset]) (by simp [Retry.reset])
      (by simp [Retry.reset, pow_zero, mul_one, min_eq_left hM])
      h i hi
    simpa using hdel
  · exact loop_rounds_sleeptime op opTime jitter fuel r.reset now 0 out h

/-- C5 witness: the default-style configuration `delay = 1/10`,
`backoff = 2`, `max_delay = 3600` on a two-invocation run. -/
theorem retry_delays_amended_witness :
    (∀ (i : ℕ)
       (hi : i < (RunOut.rounds (α := Unit)
         ⟨RunResult.retryFailed exhaustMsg, 2,
           ⟨1, 1/10, 2, 80, 3600, none, 1, 1/5, none⟩, 1/10,
           [⟨1/10, 0, 1/10, 0, true⟩]⟩).length),
       ((RunOut.rounds (α := Unit)
         ⟨RunResult.retryFailed exhaustMsg, 2,
           ⟨1, 1/10, 2, 80, 3600, none, 1, 1/5, none⟩, 1/10,
           [⟨1/10, 0, 1/10, 0, true⟩]⟩).get ⟨i, hi⟩).preDelay =
         min ((Retry.init 1 (1/10) 2 (8/10) 3600 none).delay *
           (Retry.init 1 (1/10) 2 (8/10) 3600 none).backoff ^ i)
           (Retry.init 1 (1/10) 2 (8/10) 3600 none).max_delay) ∧
    (∀ rnd ∈ RunOut.rounds (α := Unit)
         ⟨RunResult.retryFailed exhaustMsg, 2,
           ⟨1, 1/10, 2, 80, 3600, none, 1, 1/5, none⟩, 1/10,
           [⟨1/10, 0, 1/10, 0, true⟩]⟩,
       rnd.sleeptime = rnd.preDelay + (rnd.jit : ℚ) / 100) :=
  retry_delays_amended alwaysRetry zeroQ zeroJit (Retry.init 1 (1/10) 2 (8/10) 3600 none) 0 2
    ⟨RunResult.retryFailed exhaustMsg, 2,
      ⟨1, 1/10, 2, 80, 3600, none, 1, 1/5, none⟩, 1/10, [⟨1/10, 0, 1/10, 0, true⟩]⟩
    (by norm_num [Retry.init]) (by norm_num [Retry.init]) (by norm_num [Retry.init])
    (by norm_num [Retry.call, Retry.loop, Retry.init, Retry.reset, armStop, incAttempts,
      stepDelay, addRound, alwaysRetry, zeroQ, zeroJit, truncQ, stopOf, exhaustMsg,
      roundDouble_80])

/-- Deadline invariant of the loop: once the deadline instant `S` is
determined (already armed, or armed on entry as `now + deadline`), every
terminated execution keeps `_cur_stoptime = S` to the end; every sleep it
performs ends strictly before `S`; and a round that does not sleep is the
last one, produced together with `RetryFailedError("Exceeded retry
deadline")` at an unchanged wall-clock time. -/
theorem loop_stop {α : Type} (op : ℕ → OpOutcome α) (opTime : ℕ → ℚ) (jitter : ℕ → ℤ)
    (S : ℚ) :
    ∀ (fuel : ℕ) (r : Retry) (now : ℚ) (calls : ℕ) (out : RunOut α),
      stopOf r now = some S →
      Retry.loop op opTime jitter fuel r now calls = some out →
      out.finalState.cur_stoptime = some S ∧
      ∀ (i : ℕ) (hi : i < out.rounds.length),
        ((out.rounds.get ⟨i, hi⟩).slept = true →
          (out.rounds.get ⟨i, hi⟩).tCheck + (out.rounds.get ⟨i, hi⟩).sleeptime < S) ∧
        ((out.rounds.get ⟨i, hi⟩).slept = false →
          out.result = RunResult.retryFailed deadlineMsg ∧
          out.finalTime = (out.rounds.get ⟨i, hi⟩).tCheck ∧
          i + 1 = out.rounds.length) := by
  intro fuel
  induction fuel with
  | zero => intro r now calls out _ h; simp [Retry.loop] at h
  | succ fuel ih =>
      intro r now calls out hstop h
      rw [Retry.loop] at h
      have hst : (incAttempts (armStop r now)).cur_stoptime = some S := by
        simp [incAttempts, hstop]
      rcases hop : op calls with v | _ | _ <;> simp only [hop] at h
      · injection h with h2
        rw [← h2]
        refine ⟨by simp [hstop], ?_⟩
        intro i hi
        simp at hi
      · by_cases hat : (armStop r now).attempts = (armStop r now).max_tries
        · rw [if_pos hat] at h
          injection h with h2
          rw [← h2]
          refine ⟨by simp [hstop], ?_⟩
          intro i hi
          simp at hi
        · rw [if_neg hat] at h
          simp only [hst] at h
          by_cases hle : S ≤ now + opTime calls +
              ((incAttempts (armStop r now)).cur_delay + (jitter calls : ℚ) / 100)
          · rw [if_pos hle] at h
            injection h with h2
            rw [← h2]
            refine ⟨by simp [incAttempts, hstop], ?_⟩
            intro i hi
            match i with
            | 0 =>
                refine ⟨fun hs => ?_, fun _ => ⟨rfl, rfl, rfl⟩⟩
                exact absurd hs (by simp [List.get])
            | i + 1 => simp at hi
          · rw [if_neg hle] at h
            rcases hrec : Retry.loop op opTime jitter fuel
                (stepDelay (incAttempts (armStop r now)))
                (now + opTime calls +
                  ((incAttempts (armStop r now)).cur_delay + (jitter calls : ℚ) / 100))
                (calls + 1) with _ | out'
            · rw [hrec] at h; exact absurd h (by simp [addRound])
            · rw [hrec] at h
              simp only [addRound, Option.some.injEq] at h
              rw [← h]
              obtain ⟨hfs, hrounds⟩ := ih (stepDelay (incAttempts (armStop r now))) _ _ out'
                (by simp only [stopOf, stepDelay]; rw [hst]) hrec
              refine ⟨hfs, ?_⟩
              intro i hi
              match i with
              | 0 =>
                  refine ⟨fun _ => ?_, fun hs => absurd hs (by simp [List.get])⟩
                  simp only [List.get]
                  exact lt_of_not_le hle
              | i + 1 =>
                  have hi' : i < out'.rounds.length := by simpa using hi
                  obtain ⟨htrue, hfalse⟩ := hrounds i hi'
                  refine ⟨?_, ?_⟩
                  · intro hs
                    exact htrue (by simpa using hs)
                  · intro hs
                    obtain ⟨hr1, hr2, hr3⟩ := hfalse (by simpa using hs)
                    refine ⟨hr1, hr2, ?_⟩
                    simp only [List.length_cons]
                    omega
      · injection h with h2
        rw [← h2]
        refine ⟨by simp [hstop], ?_⟩
        intro i hi
        simp at hi

/-- C6: with a configured `deadline = D`, every terminated `Retry.__call__`
execution fixes the deadline instant to `now + D` on the very first attempt
and keeps it; every sleep it performs ends strictly before that instant (it
never sleeps past `start + deadline`); and whenever the projected end of the
next sleep would reach or cross the instant, the run ends at that round with
`RetryFailedError("Exceeded retry deadline")`, without sleeping at all (the
wall clock does not advance past the check time). -/
theorem retry_deadline_guard {α : Type} (op : ℕ → OpOutcome α) (opTime : ℕ → ℚ)
    (jitter : ℕ → ℤ) (fuel : ℕ) (r : Retry) (now D : ℚ) (out : RunOut α)
    (hD : r.deadline = some D)
    (h : Retry.call op opTime jitter fuel r now = some out) :
    out.finalState.cur_stoptime = some (now + D) ∧
    ∀ (i : ℕ) (hi : i < out.rounds.length),
      ((out.rounds.get ⟨i, hi⟩).slept = true →
        (out.rounds.get ⟨i, hi⟩).tCheck + (out.rounds.get ⟨i, hi⟩).sleeptime < now + D) ∧
      ((out.rounds.get ⟨i, hi⟩).slept = false →
        out.result = RunResult.retryFailed deadlineMsg ∧
        out.finalTime = (out.rounds.get ⟨i, hi⟩).tCheck ∧
        i + 1 = out.rounds.length) :=
  loop_stop op opTime jitter (now + D) fuel r.reset now 0 out
    (by simp [stopOf, Retry.reset, hD]) h

/-- C6 witness: the concrete aborted run `deadlineRunOut` satisfies the
deadline-guard properties for `deadline = 1` started at time 10. -/
theorem retry_deadline_guard_witness :
    deadlineRunOut.finalState.cur_stoptime = some (10 + 1) ∧
    ∀ (i : ℕ) (hi : i < deadlineRunOut.rounds.length),
      ((deadlineRunOut.rounds.get ⟨i, hi⟩).slept = true →
        (deadlineRunOut.rounds.get ⟨i, hi⟩).tCheck +
          (deadlineRunOut.rounds.get ⟨i, hi⟩).sleeptime < 10 + 1) ∧
      ((deadlineRunOut.rounds.get ⟨i, hi⟩).slept = false →
        deadlineRunOut.result = RunResult.retryFailed deadlineMsg ∧
        deadlineRunOut.finalTime = (deadlineRunOut.rounds.get ⟨i, hi⟩).tCheck ∧
        i + 1 = deadlineRunOut.rounds.length) :=
  retry_deadline_guard alwaysRetry zeroQ zeroJit 1 (Retry.init 5 5 2 0 3600 (some 1)) 10 1
    deadlineRunOut rfl
    (by norm_num [Retry.call, Retry.loop, Retry.init, Retry.reset, armStop, incAttempts,
      stepDelay, addRound, alwaysRetry, zeroQ, zeroJit, truncQ, roundDouble_zero,
      deadlineRunOut])

@[simp] theorem setMJ_max_tries (j : ℤ) (r : Retry) : (setMJ j r).max_tries = r.max_tries := rfl

@[simp] theorem setMJ_delay (j : ℤ) (r : Retry) : (setMJ j r).delay = r.delay := rfl

@[simp] theorem setMJ_backoff (j : ℤ) (r : Retry) : (setMJ j r).backoff = r.backoff := rfl

@[simp] theorem setMJ_max_jitter (j : ℤ) (r : Retry) : (setMJ j r).max_jitter = j := rfl

@[simp] theorem setMJ_max_delay (j : ℤ) (r : Retry) : (setMJ j r).max_delay = r.max_delay := rfl

@[simp] theorem setMJ_deadline (j : ℤ) (r : Retry) : (setMJ j r).deadline = r.deadline := rfl

@[simp] theorem setMJ_attempts (j : ℤ) (r : Retry) : (setMJ j r).attempts = r.attempts := rfl

@[simp] theorem setMJ_cur_delay (j : ℤ) (r : Retry) : (setMJ j r).cur_delay = r.cur_delay := rfl

@[simp] theorem setMJ_cur_stoptime (j : ℤ) (r : Retry) :
    (setMJ j r).cur_stoptime = r.cur_stoptime := rfl

@[simp] theorem armStop_setMJ (j : ℤ) (r : Retry) (now : ℚ) :
    armStop (setMJ j r) now = setMJ j (armStop r now) := by
  unfold armStop
  rcases hd : r.deadline <;> rcases hs : r.cur_stoptime <;> simp [setMJ, hd, hs]

@[simp] theorem incAttempts_setMJ (j : ℤ) (r : Retry) :
    incAttempts (setMJ j r) = setMJ j (incAttempts r) := by
  simp [setMJ, incAttempts]

@[simp] theorem stepDelay_setMJ (j : ℤ) (r : Retry) :
    stepDelay (setMJ j r) = setMJ j (stepDelay r) := by
  simp [setMJ, stepDelay]

/-- The retry loop never reads the stored `max_jitter` (the jitter draw is
an input stream): running from a state that differs only in `max_jitter`
yields the same result, invocation count, times and rounds, with the final
state carrying that `max_jitter`. -/
theorem loop_max_jitter {α : Type} (op : ℕ → OpOutcome α) (opTime : ℕ → ℚ)
    (jitter : ℕ → ℤ) :
    ∀ (fuel : ℕ) (j : ℤ) (r : Retry) (now : ℚ) (calls : ℕ),
      Retry.loop op opTime jitter fuel (setMJ j r) now calls =
        Option.map
          (fun out => { out with finalState := setMJ j out.finalState })
          (Retry.loop op opTime jitter fuel r now calls) := by
  intro fuel
  induction fuel with
  | zero => intro j r now calls; simp [Retry.loop]
  | succ fuel ih =>
      intro j r now calls
      rw [Retry.loop, Retry.loop]
      simp only [armStop_setMJ, setMJ_attempts, setMJ_max_tries, setMJ_cur_delay,
        setMJ_cur_stoptime, incAttempts_setMJ, stepDelay_setMJ]
      rcases hop : op calls with v | _ | _ <;> simp only [hop]
      · simp [Option.map]
      · by_cases hat : (armStop r now).attempts = (armStop r now).max_tries
        · rw [if_pos hat, if_pos hat]
          simp [Option.map]
        · rw [if_neg hat, if_neg hat]
          rcases hst : (incAttempts (armStop r now)).cur_stoptime with _ | stop
          · simp only [hst]
            rw [ih]
            rcases hrec : Retry.loop op opTime jitter fuel
                (stepDelay (incAttempts (armStop r now)))
                (now + opTime calls +
                  ((incAttempts (armStop r now)).cur_delay + (jitter calls : ℚ) / 100))
                (calls + 1) with _ | outX <;> simp [addRound, Option.map]
          · simp only [hst]
            by_cases hle : stop ≤ now + opTime calls +
                ((incAttempts (armStop r now)).cur_delay + (jitter calls : ℚ) / 100)
            · rw [if_pos hle, if_pos hle]
              simp [Option.map]
            · rw [if_neg hle, if_neg hle]
              rw [ih]
              rcases hrec : Retry.loop op opTime jitter fuel
                  (stepDelay (incAttempts (armStop r now)))
                  (now + opTime calls +
                    ((incAttempts (armStop r now)).cur_delay + (jitter calls : ℚ) / 100))
                  (calls + 1) with _ | outX <;> simp [addRound, Option.map]
      · simp [Option.map]

/-- `copy()` then `reset()` agrees with `reset()` of the original in every
field except the stored `max_jitter`, which is the copy's own. -/
theorem copy_reset_jitter (r : Retry) :
    (r.copy).reset = setMJ (r.copy).max_jitter r.reset := by
  simp [Retry.copy, Retry.init, Retry.reset, setMJ]

/-- C8 counterexample: a policy constructed with `max_jitter = 0.295` (the
binary64 value of that literal) stores `int(double(0.295) * 100) =
int(29.5) = 29`, but its `copy()` stores
`int(double(29 / 100.0) * 100) = int(28.999999999999996) = 28`: the copy's
configuration is not identical to the original's, refuting the claim. -/
theorem retry_copy_counterexample :
    (Retry.init 1 (1/10) 2 (roundDouble (295/1000)) 3600 none).max_jitter = 29 ∧
    ((Retry.init 1 (1/10) 2 (roundDouble (295/1000)) 3600 none).copy).max_jitter = 28 ∧
    ((29 : ℤ) ≠ 28) := by
  have h29 : (Retry.init 1 (1/10) 2 (roundDouble (295/1000)) 3600 none).max_jitter = 29 := by
    simp only [Retry.init]
    rw [roundDouble_295, roundDouble_295_times100]
    norm_num [truncQ]
  refine ⟨h29, ?_, by decide⟩
  simp only [Retry.copy]
  rw [h29]
  simp only [Retry.init]
  rw [show ((29 : ℤ) : ℚ) = 29 by norm_num, roundDouble_29div100, roundDouble_29_roundtrip]
  norm_num [truncQ]

/-- C8 (amended): `Retry.copy` returns a new policy with fresh run state
(`_attempts = 0`, `_cur_delay = delay`, `_cur_stoptime = None`) whose
configuration equals the original's in `max_tries`, `delay`, `backoff`,
`max_delay` and `deadline` (these pass through `__init__` unchanged), while
the stored `max_jitter` is re-derived as
`int(double(max_jitter / 100.0) * 100)` — a binary64 round trip that is not
always exact (29 becomes 28).  Run state is per-instance (a value in this
embedding), so driving a copy to `RetryFailedError` cannot touch the
attempt counter of the original or of any other copy; and under identical
operation outcomes, invocation timings and jitter draws, `__call__` on the
copy produces the same result, invocation count, times and rounds as on the
original — the loop never reads `max_jitter` — with the final state
carrying the copy's own `max_jitter`. -/
theorem retry_copy_amended :
    (∀ r : Retry,
      (r.copy).max_tries = r.max_tries ∧ (r.copy).delay = r.delay ∧
      (r.copy).backoff = r.backoff ∧ (r.copy).max_delay = r.max_delay ∧
      (r.copy).deadline = r.deadline ∧
      (r.copy).max_jitter =
        truncQ (roundDouble (roundDouble ((r.max_jitter : ℚ) / 100) * 100)) ∧
      (r.copy).attempts = 0 ∧ (r.copy).cur_delay = r.delay ∧
      (r.copy).cur_stoptime = none) ∧
    (∀ (α : Type) (op : ℕ → OpOutcome α) (opTime : ℕ → ℚ) (jitter : ℕ → ℤ)
       (fuel : ℕ) (r : Retry) (now : ℚ),
       Retry.call op opTime jitter fuel r.copy now =
         Option.map (fun out =>
           { out with finalState := setMJ (r.copy).max_jitter out.finalState })
           (Retry.call op opTime jitter fuel r now)) := by
  refine ⟨fun r => ⟨rfl, rfl, rfl, rfl, rfl, rfl, rfl, rfl, rfl⟩, ?_⟩
  intro α op opTime jitter fuel r now
  unfold Retry.call
  rw [copy_reset_jitter]
  exact loop_max_jitter op opTime jitter fuel _ _ now 0

end Patroni
